import Mathlib

/-
Verification development for the rusty-xv6 kernel (Rust, i386).

Each definition below is a shallow embedding of a function or data
structure of the kernel source; machine integers are modelled as Nat with
explicit reduction modulo 2^32 where 32-bit wraparound matters, and
fallible or panicking code returns Option.

Sources embedded here:
  - kernel/src/memory.rs       (p2v / v2p, page-table entry packing)
  - kernel/src/fs.rs, kernel/src/fs/inode.rs
                               (split_first, name_x start inode, dir_lookup,
                                the bcache arena and its LRU lists)
  - kernel/src/lock.rs         (push_cli / pop_cli)
  - kernel/src/fs/ide.rs       (request construction and IdeQueue::start)
  - kernel/src/trap.rs         (trap dispatch)
  - kernel/src/vm.rs           (walk_page_dir / map_pages)
-/

set_option maxRecDepth 4096

/-! ## memory.rs: address translation between the kernel window and physical memory -/

/-- First kernel virtual address (memory.rs KERNBASE). -/
def KERNBASE : Nat := 0x80000000

/-- Top of physical memory (memory.rs PHYSTOP). -/
def PHYSTOP : Nat := 0x0E000000

/-- p2v adds KERNBASE to a raw physical address (usize arithmetic, 32 bit). -/
def p2v (pa : Nat) : Nat := (pa + KERNBASE) % 2 ^ 32

/-- v2p subtracts KERNBASE from a raw virtual address; usize subtraction
wraps modulo 2^32 when the argument is below KERNBASE. -/
def v2p (va : Nat) : Nat := (va + 2 ^ 32 - KERNBASE) % 2 ^ 32

/-! ## fs.rs / fs/inode.rs: path element splitting -/

/-- Byte value of the path separator, b'/'. -/
def SLASH : Nat := 47

/-- Inner loop of split_first: drop leading b'/' bytes. -/
def skip_leading_slash : List Nat → List Nat
  | [] => []
  | b :: rest => if b = SLASH then skip_leading_slash rest else b :: rest

/-- Second loop of split_first: collect bytes of the first element until a
slash (the source counts len and slices; the remainder is the suffix the
loop stops at). -/
def take_elem : List Nat → List Nat × List Nat
  | [] => ([], [])
  | b :: rest =>
    if b ≠ SLASH then
      let p := take_elem rest
      (b :: p.1, p.2)
    else ([], b :: rest)

/-- split_first from fs/inode.rs: strip leading slashes; if nothing is
left return none; otherwise return the first element and the remainder
with its own leading slashes stripped. -/
def split_first (path : List Nat) : Option (List Nat × List Nat) :=
  if skip_leading_slash path = [] then none
  else some ((take_elem (skip_leading_slash path)).1,
             skip_leading_slash (take_elem (skip_leading_slash path)).2)

/-- Statement of the specification for split_first, written with
takeWhile and dropWhile exactly as the spec describes the result: the
first path element and the remainder with leading slashes stripped. -/
def split_first_spec_fn (path : List Nat) : Option (List Nat × List Nat) :=
  if (path.dropWhile (fun b => b == SLASH)).isEmpty then none
  else some ((path.dropWhile (fun b => b == SLASH)).takeWhile (fun b => b != SLASH),
             ((path.dropWhile (fun b => b == SLASH)).dropWhile
                (fun b => b != SLASH)).dropWhile (fun b => b == SLASH))

/-! ## fs/inode.rs: the start inode of path resolution -/

/-- Root device number (fs/inode.rs ROOT_DEV). -/
def ROOT_DEV : Nat := 1

/-- Root inode number (fs/inode.rs ROOT_INO). -/
def ROOT_INO : Nat := 1

/-- Start inode selection of name_x (fs/inode.rs and the fs.rs draft):
the match arm compares the whole path against the one-byte string
containing a single slash; every other path, absolute or not, starts at
the calling process's current working directory. -/
def name_x_start (path : List Nat) (cwd : Nat × Nat) : Nat × Nat :=
  if path = [SLASH] then (ROOT_DEV, ROOT_INO) else cwd

/-! ## lock.rs: push_cli / pop_cli -/

/-- The interrupt state a single CPU sees: the EFLAGS.IF bit, and the
per-CPU fields num_cli and int_enabled of proc.rs Cpu. -/
structure CliState where
  ifFlag : Bool
  num_cli : Nat
  int_enabled : Bool
deriving DecidableEq, Repr

/-- push_cli from lock.rs: read EFLAGS, execute cli, capture IF into
int_enabled when the nesting depth is zero, then increment the depth. -/
def push_cli (s : CliState) : CliState :=
  let eflags_if := s.ifFlag
  let s1 : CliState := { s with ifFlag := false }
  let s2 : CliState := if s1.num_cli = 0 then { s1 with int_enabled := eflags_if } else s1
  { s2 with num_cli := s2.num_cli + 1 }

/-- pop_cli from lock.rs: panic (none) if IF is set or the depth is zero;
otherwise decrement the depth and execute sti exactly when the depth
reaches zero and int_enabled was captured true. -/
def pop_cli (s : CliState) : Option CliState :=
  if s.ifFlag then none
  else if s.num_cli = 0 then none
  else
    let s1 : CliState := { s with num_cli := s.num_cli - 1 }
    if s1.num_cli = 0 && s1.int_enabled then some { s1 with ifFlag := true } else some s1

/-- A step of intervening code, as far as the interrupt discipline is
concerned: a push_cli or a pop_cli. -/
inductive CliOp where
  | push : CliOp
  | pop : CliOp
deriving DecidableEq, Repr

/-- Run a sequence of push_cli / pop_cli calls; none if any pop_cli
panics. -/
def exec_cli : CliState → List CliOp → Option CliState
  | s, [] => some s
  | s, CliOp.push :: ops => exec_cli (push_cli s) ops
  | s, CliOp.pop :: ops =>
    match pop_cli s with
    | none => none
    | some s1 => exec_cli s1 ops

/-- Dyck-word check: w is balanced relative to d pending pushes. -/
def balancedAux : List CliOp → Nat → Bool
  | [], d => d == 0
  | CliOp.push :: w, d => balancedAux w (d + 1)
  | CliOp.pop :: w, d =>
    match d with
    | 0 => false
    | d' + 1 => balancedAux w d'

/-- A balanced sequence of push_cli / pop_cli calls. -/
def BalancedCli (w : List CliOp) : Prop := balancedAux w 0 = true

/-! ## fs/ide.rs: request construction and IdeQueue::start -/

/-- The two request kinds of fs/ide.rs enum Command. -/
inductive IdeCommand where
  | read : IdeCommand
  | write : IdeCommand
deriving DecidableEq, Repr

/-- The fields of fs/ide.rs Request that determine the port program
(the data pointer, flags pointer and wait channel are omitted). -/
structure IdeRequest where
  cmd : IdeCommand
  dev : Nat
  block_no : Nat
deriving DecidableEq, Repr

/-- Block size (fs/mod.rs BLK_SIZE). -/
def BLK_SIZE : Nat := 512

/-- Sector size (fs/ide.rs SECTOR_SIZE). -/
def SECTOR_SIZE : Nat := 512

/-- The request write_to_disk builds and appends to the IDE queue for a
dirty buffer: fs/ide.rs constructs it with cmd Command::Read. -/
def write_to_disk_request (dev block_no : Nat) : IdeRequest :=
  { cmd := IdeCommand.read, dev := dev, block_no := block_no }

/-- The request read_from_disk builds and appends to the IDE queue. -/
def read_from_disk_request (dev block_no : Nat) : IdeRequest :=
  { cmd := IdeCommand.read, dev := dev, block_no := block_no }

/-- One hardware access performed by the IDE driver. -/
inductive IdePortOp where
  | waitDisk : IdePortOp
  | outb : Nat → Nat → IdePortOp
  | outsl : Nat → Nat → IdePortOp
  | insl : Nat → Nat → IdePortOp
deriving DecidableEq, Repr

/-- The port program of IdeQueue::start for the request at the head of
the queue, in order: wait for the disk, program the control and LBA
registers, then send the command byte; a Write request additionally
streams BLK_SIZE/4 dwords through outsl. -/
def ide_start (req : IdeRequest) : List IdePortOp :=
  let sector_per_block := BLK_SIZE / SECTOR_SIZE
  let sector := req.block_no * sector_per_block
  let read_cmd := if sector_per_block = 1 then 0x20 else 0xC4
  let write_cmd := if sector_per_block = 1 then 0x30 else 0xC5
  [IdePortOp.waitDisk,
   IdePortOp.outb 0x3F6 0,
   IdePortOp.outb 0x1F2 (sector_per_block % 256),
   IdePortOp.outb 0x1F3 (sector &&& 0xFF),
   IdePortOp.outb 0x1F4 ((sector >>> 8) &&& 0xFF),
   IdePortOp.outb 0x1F5 ((sector >>> 16) &&& 0xFF),
   IdePortOp.outb 0x1F6 (0xE0 ||| ((req.dev &&& 1) <<< 4) ||| ((sector >>> 24) &&& 0x0F))] ++
  (match req.cmd with
   | IdeCommand.read => [IdePortOp.outb 0x1F0 read_cmd]
   | IdeCommand.write => [IdePortOp.outb 0x1F7 write_cmd, IdePortOp.outsl 0x1F0 (BLK_SIZE / 4)])

/-! ## trap.rs: the trap handler -/

/-- Base interrupt vector (trap.rs T_IRQ0). -/
def T_IRQ0 : Nat := 32

/-- Timer IRQ line (trap.rs IRQ_TIMER). -/
def IRQ_TIMER : Nat := 0

/-- Observable actions a trap handler could take on the tick machinery. -/
inductive TrapAction where
  | eoi : TrapAction
  | tickAdvance : TrapAction
  | wakeupTicks : TrapAction
deriving DecidableEq, Repr

/-- The trap handler of trap.rs: its body performs lapic::eoi() only,
for every trap number; the TICKS counter (trap.rs line 50) is returned
unchanged because the handler never touches it. -/
def trap_handler (trap_no : Nat) (ticks : Nat) : Nat × List TrapAction :=
  (ticks, [TrapAction.eoi])

/-! # Theorems -/

/-! ## C7: p2v after v2p on the kernel window -/

/-- C7: for every virtual address va in the direct-mapped kernel window
from KERNBASE to KERNBASE + PHYSTOP, p2v (v2p va) = va, where v2p
subtracts KERNBASE and p2v adds it back (both modulo 2^32). -/
theorem p2v_v2p_roundtrip (va : Nat) (h1 : KERNBASE ≤ va)
    (h2 : va < KERNBASE + PHYSTOP) : p2v (v2p va) = va := by
  unfold p2v v2p KERNBASE PHYSTOP at *
  omega

/-- Witness for C7 at the concrete kernel address 0x80001000. -/
theorem p2v_v2p_roundtrip_witness :
    KERNBASE ≤ 0x80001000 ∧ 0x80001000 < KERNBASE + PHYSTOP ∧
      p2v (v2p 0x80001000) = 0x80001000 :=
  ⟨by decide, by decide, p2v_v2p_roundtrip 0x80001000 (by decide) (by decide)⟩

/-! ## C5: split_first -/

theorem skip_leading_slash_eq_dropWhile (l : List Nat) :
    skip_leading_slash l = l.dropWhile (fun b => b == SLASH) := by
  induction l with
  | nil => rfl
  | cons b rest ih =>
    by_cases h : b = SLASH
    · simp [skip_leading_slash, h, List.dropWhile_cons, ih]
    · simp [skip_leading_slash, h, List.dropWhile_cons]

theorem take_elem_eq (l : List Nat) :
    take_elem l = (l.takeWhile (fun b => b != SLASH), l.dropWhile (fun b => b != SLASH)) := by
  induction l with
  | nil => rfl
  | cons b rest ih =>
    by_cases h : b = SLASH
    · simp [take_elem, h, List.takeWhile_cons, List.dropWhile_cons]
    · simp [take_elem, h, List.takeWhile_cons, List.dropWhile_cons, ih]

/-- C5: split_first returns none exactly when the path consists only of
slash bytes (including the empty path); otherwise it returns the first
path element together with the remainder stripped of leading slashes
(the takeWhile / dropWhile characterisation), and it satisfies the four
concrete examples of the specification: "a/bb/c", "///a//bb", "a", and
the all-slash paths "" and "////". -/
theorem split_first_correct :
    (∀ p : List Nat, (split_first p = none ↔ ∀ b ∈ p, b = SLASH)) ∧
    (∀ p : List Nat, split_first p = split_first_spec_fn p) ∧
    split_first [97, 47, 98, 98, 47, 99] = some ([97], [98, 98, 47, 99]) ∧
    split_first [47, 47, 47, 97, 47, 47, 98, 98] = some ([97], [98, 98]) ∧
    split_first [97] = some ([97], []) ∧
    split_first [] = none ∧
    split_first [47, 47, 47, 47] = none := by
  refine ⟨?_, ?_, by decide, by decide, by decide, by decide, by decide⟩
  · intro p
    constructor
    · intro h b hb
      unfold split_first at h
      by_cases he : skip_leading_slash p = []
      · rw [skip_leading_slash_eq_dropWhile] at he
        have := List.dropWhile_eq_nil_iff.mp he b hb
        simpa using this
      · simp [he] at h
    · intro h
      unfold split_first
      have he : skip_leading_slash p = [] := by
        rw [skip_leading_slash_eq_dropWhile]
        rw [List.dropWhile_eq_nil_iff]
        intro b hb
        simpa using h b hb
      simp [he]
  · intro p
    unfold split_first split_first_spec_fn
    rw [skip_leading_slash_eq_dropWhile, take_elem_eq, skip_leading_slash_eq_dropWhile]
    by_cases he : p.dropWhile (fun b => b == SLASH) = []
    · simp [he]
    · simp only [he, List.isEmpty_iff, if_neg, if_false]

/-! ## C6 and C10: push_cli / pop_cli -/

theorem exec_cli_balanced (w : List CliOp) : ∀ (d c : Nat) (s : CliState),
    balancedAux w d = true → s.ifFlag = false → s.num_cli = c + d → 1 ≤ c →
    exec_cli s w = some ⟨false, c, s.int_enabled⟩ := by
  induction w with
  | nil =>
    intro d c s hb hif hn hc
    simp [balancedAux] at hb
    subst hb
    cases s
    simp_all [exec_cli]
  | cons op w ih =>
    intro d c s hb hif hn hc
    cases op with
    | push =>
      simp [balancedAux] at hb
      have hpos : s.num_cli ≠ 0 := by omega
      have hpush : push_cli s = ⟨false, s.num_cli + 1, s.int_enabled⟩ := by
        unfold push_cli
        simp [hpos]
      simp only [exec_cli, hpush]
      have := ih (d + 1) c ⟨false, s.num_cli + 1, s.int_enabled⟩ hb rfl (by simp; omega) hc
      simpa using this
    | pop =>
      cases d with
      | zero => simp [balancedAux] at hb
      | succ d' =>
        simp [balancedAux] at hb
        have hpos : s.num_cli ≠ 0 := by omega
        have hpos2 : s.num_cli - 1 ≠ 0 := by omega
        have hpop : pop_cli s = some ⟨false, s.num_cli - 1, s.int_enabled⟩ := by
          unfold pop_cli
          simp [hif, hpos, hpos2]
        simp only [exec_cli, hpop]
        have := ih d' c ⟨false, s.num_cli - 1, s.int_enabled⟩ hb rfl (by simp; omega) hc
        simpa using this

/-- C6: starting from nesting depth zero, a push_cli, any balanced
push/pop sequence, then the matching pop_cli runs without a panic and
leaves EFLAGS.IF exactly as it was before the push_cli: the outermost
pop_cli re-enables interrupts precisely when IF was set before the
outermost push_cli. -/
theorem push_pop_cli_restores_if (s : CliState) (w : List CliOp)
    (hb : BalancedCli w) (h0 : s.num_cli = 0) :
    exec_cli s (CliOp.push :: w ++ [CliOp.pop]) =
      some ⟨s.ifFlag, 0, s.ifFlag⟩ := by
  have hpush : push_cli s = ⟨false, 1, s.ifFlag⟩ := by
    unfold push_cli
    simp [h0]
  simp only [exec_cli, hpush]
  have hmid : exec_cli ⟨false, 1, s.ifFlag⟩ w = some ⟨false, 1, s.ifFlag⟩ := by
    simpa using exec_cli_balanced w 0 1 ⟨false, 1, s.ifFlag⟩ hb rfl rfl (by omega)
  have hextend : ∀ (u : List CliOp) (t t' : CliState), exec_cli t u = some t' →
      ∀ v, exec_cli t (u ++ v) = exec_cli t' v := by
    intro u
    induction u with
    | nil =>
      intro t t' h v
      simp [exec_cli] at h
      subst h
      rfl
    | cons op u ihu =>
      intro t t' h v
      cases op with
      | push =>
        simp only [exec_cli] at h
        simp only [List.cons_append, exec_cli]
        exact ihu _ _ h v
      | pop =>
        simp only [exec_cli] at h
        simp only [List.cons_append, exec_cli]
        cases hp : pop_cli t with
        | none => rw [hp] at h; exact absurd h (by simp)
        | some t1 =>
          rw [hp] at h
          exact ihu _ _ h v
  simp only [List.append_eq]
  rw [hextend w _ _ hmid [CliOp.pop]]
  have hpop : pop_cli ⟨false, 1, s.ifFlag⟩ = some ⟨s.ifFlag, 0, s.ifFlag⟩ := by
    unfold pop_cli
    cases h : s.ifFlag <;> simp
  simp only [exec_cli, hpop]

/-- Witness for C6: IF initially set, depth 0, with one nested
push/pop pair in between; afterwards IF is set again. -/
theorem push_pop_cli_restores_if_witness :
    BalancedCli [CliOp.push, CliOp.pop] ∧
    (⟨true, 0, false⟩ : CliState).num_cli = 0 ∧
    exec_cli ⟨true, 0, false⟩
        (CliOp.push :: [CliOp.push, CliOp.pop] ++ [CliOp.pop]) =
      some ⟨true, 0, true⟩ :=
  ⟨rfl, rfl,
   push_pop_cli_restores_if ⟨true, 0, false⟩ [CliOp.push, CliOp.pop] rfl rfl⟩

/-- C10: pop_cli panics exactly when EFLAGS.IF is still set or the
nesting depth num_cli is zero; when interrupts are disabled and the
depth is positive, neither panic branch is reachable. -/
theorem pop_cli_panic_condition (s : CliState) :
    pop_cli s = none ↔ (s.ifFlag = true ∨ s.num_cli = 0) := by
  unfold pop_cli
  by_cases hif : s.ifFlag
  · simp [hif]
  · by_cases hn : s.num_cli = 0
    · simp [hif, hn]
    · by_cases h2 : s.num_cli - 1 = 0 ∧ s.int_enabled = true
      · simp [hif, hn, h2.1, h2.2]
      · rcases not_and_or.mp h2 with h3 | h3 <;>
          simp [hif, hn, h3]

/-! ## C1: the start inode of name_x -/

/-- C1: the path "/README" (bytes 47,82,69,65,68,77,69) starts with a
slash, yet name_x starts its traversal at the calling process's current
working directory, here (dev,inum) = (2,5), not at (ROOT_DEV, ROOT_INO):
the source matches the whole path against "/" instead of testing the
first byte, so only the exact path "/" starts at the root inode. -/
theorem name_x_absolute_path_starts_at_cwd :
    name_x_start [47, 82, 69, 65, 68, 77, 69] (2, 5) = (2, 5) ∧
    (2, 5) ≠ (ROOT_DEV, ROOT_INO) ∧
    ([47, 82, 69, 65, 68, 77, 69] : List Nat).head? = some SLASH ∧
    name_x_start [SLASH] (2, 5) = (ROOT_DEV, ROOT_INO) := by
  refine ⟨by decide, by decide, by decide, by decide⟩

/-! ## C2: write_to_disk enqueues a Read request -/

/-- C2: the request write_to_disk enqueues for a dirty buffer carries
command Read, not Write, so IdeQueue::start takes the Read arm for it:
the resulting port program for block 7 on disk 0 sends command byte 0x20
(and to port 0x1F0 at that), never writes the WRITE command 0x30 to port
0x1F7, and never streams the 128 payload dwords via outsl. -/
theorem write_to_disk_enqueues_read_command :
    (write_to_disk_request 0 7).cmd = IdeCommand.read ∧
    IdeCommand.read ≠ IdeCommand.write ∧
    ide_start (write_to_disk_request 0 7) =
      [IdePortOp.waitDisk, IdePortOp.outb 0x3F6 0, IdePortOp.outb 0x1F2 1,
       IdePortOp.outb 0x1F3 7, IdePortOp.outb 0x1F4 0, IdePortOp.outb 0x1F5 0,
       IdePortOp.outb 0x1F6 0xE0, IdePortOp.outb 0x1F0 0x20] ∧
    (IdePortOp.outsl 0x1F0 (BLK_SIZE / 4)) ∉ ide_start (write_to_disk_request 0 7) ∧
    (IdePortOp.outb 0x1F7 0x30) ∉ ide_start (write_to_disk_request 0 7) := by
  refine ⟨by decide, by decide, by decide, by decide, by decide⟩

/-! ## C8: the timer trap -/

/-- C8: at trap number T_IRQ0 + IRQ_TIMER (vector 32) the trap handler
of trap.rs leaves the tick counter unchanged and performs only a LAPIC
EOI: it neither advances TICKS under its spinlock nor wakes up the tick
channel. -/
theorem trap_timer_only_eoi :
    trap_handler (T_IRQ0 + IRQ_TIMER) 5 = (5, [TrapAction.eoi]) ∧
    TrapAction.tickAdvance ∉ (trap_handler (T_IRQ0 + IRQ_TIMER) 5).2 ∧
    TrapAction.wakeupTicks ∉ (trap_handler (T_IRQ0 + IRQ_TIMER) 5).2 ∧
    TrapAction.eoi ≠ TrapAction.tickAdvance := by
  refine ⟨by decide, by decide, by decide, by decide⟩

/-! ## fs.rs dir_lookup -/

/-- Directory entry name length (fs.rs DIR_SIZE). -/
def DIR_SIZE : Nat := 14

/-- An on-disk directory entry: a 16-bit inode number and a 14-byte name
array (fs.rs DirEnt). An entry with inum 0 is a free slot. -/
structure DirEnt where
  inum : Nat
  name : List Nat
deriving DecidableEq, Repr

/-- Modelled from the spec: the non-device branch of InodeBody::read is
unimplemented in the source, so the directory body is modelled as the
sequence of 16-byte DirEnt records the spec describes the read loop of
dir_lookup consuming at offsets 0, 16, 32, and so on. The scan itself is
the loop of fs.rs dir_lookup: skip entries with inum 0, and compare the
searched slice with the fixed 14-byte name array using Rust slice-versus-
array equality, which requires equal length and equal bytes. -/
def dir_lookup_go : List DirEnt → Nat → List Nat → Option (Nat × Nat)
  | [], _, _ => none
  | de :: rest, off, name =>
    if de.inum ≠ 0 ∧ name = de.name then some (de.inum, off)
    else dir_lookup_go rest (off + 16) name

/-- dir_lookup over a directory body: scan from offset 0 and return the
matching entry's inode number and offset. -/
def dir_lookup (entries : List DirEnt) (name : List Nat) : Option (Nat × Nat) :=
  dir_lookup_go entries 0 name

theorem dir_lookup_go_match (entries : List DirEnt) : ∀ (off : Nat) (name : List Nat)
    (inum doff : Nat), dir_lookup_go entries off name = some (inum, doff) →
    ∃ de ∈ entries, de.inum = inum ∧ name = de.name ∧ de.inum ≠ 0 := by
  induction entries with
  | nil => intro off name inum doff h; simp [dir_lookup_go] at h
  | cons de rest ih =>
    intro off name inum doff h
    by_cases hm : de.inum ≠ 0 ∧ name = de.name
    · rw [dir_lookup_go, if_pos hm] at h
      refine ⟨de, by simp, ?_, hm.2, hm.1⟩
      cases h
      rfl
    · rw [dir_lookup_go, if_neg hm] at h
      obtain ⟨de2, hmem, hrest⟩ := ih (off + 16) name inum doff h
      exact ⟨de2, by simp [hmem], hrest⟩

/-- C9: dir_lookup returns a match only when the searched name slice has
exactly DIR_SIZE = 14 bytes and is byte-for-byte equal to the matching
entry's 14-byte name array (NUL padding included); in particular a name
slice shorter than 14 bytes never matches any entry of a directory whose
entries all carry 14-byte name arrays. -/
theorem dir_lookup_matches_whole_name (entries : List DirEnt) (name : List Nat)
    (inum doff : Nat)
    (hlen : ∀ de ∈ entries, de.name.length = DIR_SIZE)
    (hfound : dir_lookup entries name = some (inum, doff)) :
    name.length = DIR_SIZE ∧
    (∃ de ∈ entries, de.inum = inum ∧ name = de.name ∧ de.inum ≠ 0) := by
  obtain ⟨de, hmem, hde⟩ := dir_lookup_go_match entries 0 name inum doff hfound
  refine ⟨?_, ⟨de, hmem, hde⟩⟩
  rw [hde.2.1]
  exact hlen de hmem

/-- Witness for C9: one directory entry whose name is README padded with
NUL bytes to 14; looking up the padded name finds it, and the conclusion
of the theorem holds at this input. -/
theorem dir_lookup_matches_whole_name_witness :
    (∀ de ∈ [(⟨3, [82, 69, 65, 68, 77, 69, 0, 0, 0, 0, 0, 0, 0, 0]⟩ : DirEnt)],
        de.name.length = DIR_SIZE) ∧
    dir_lookup [(⟨3, [82, 69, 65, 68, 77, 69, 0, 0, 0, 0, 0, 0, 0, 0]⟩ : DirEnt)]
        [82, 69, 65, 68, 77, 69, 0, 0, 0, 0, 0, 0, 0, 0] = some (3, 0) ∧
    (([82, 69, 65, 68, 77, 69, 0, 0, 0, 0, 0, 0, 0, 0] : List Nat).length = DIR_SIZE ∧
     (∃ de ∈ [(⟨3, [82, 69, 65, 68, 77, 69, 0, 0, 0, 0, 0, 0, 0, 0]⟩ : DirEnt)],
        de.inum = 3 ∧
        [82, 69, 65, 68, 77, 69, 0, 0, 0, 0, 0, 0, 0, 0] = de.name ∧ de.inum ≠ 0)) :=
  ⟨by decide, by decide,
   dir_lookup_matches_whole_name
     [(⟨3, [82, 69, 65, 68, 77, 69, 0, 0, 0, 0, 0, 0, 0, 0]⟩ : DirEnt)]
     [82, 69, 65, 68, 77, 69, 0, 0, 0, 0, 0, 0, 0, 0] 3 0 (by decide) (by decide)⟩

/-! ## fs.rs bcache: the buffer arena and its LRU lists -/

/-- Flag bit: buffer has been read from disk (fs.rs B_VALID). -/
def B_VALID : Nat := 0x2

/-- Flag bit: buffer must be written to disk (fs.rs B_DIRTY). -/
def B_DIRTY : Nat := 0x4

/-- A cached buffer of fs.rs bcache: identity, reference count and flag
byte (the 512-byte payload and sleep lock do not affect list movement). -/
structure Buf where
  dev : Nat
  block_no : Nat
  ref_cnt : Nat
  flags : Nat
deriving DecidableEq, Repr

/-- Buf::dirty from fs.rs. -/
def Buf.dirty (b : Buf) : Bool := (b.flags &&& B_DIRTY) != 0

/-- Buf::unused from fs.rs: even with ref_cnt zero, B_DIRTY keeps a
buffer in use. -/
def Buf.unused (b : Buf) : Bool := b.ref_cnt == 0 && !b.dirty

/-- Number of buffers in the arena (fs.rs N_BUF). -/
def N_BUF : Nat := 30

/-- The buffer cache: the arena of N_BUF buffers (indexed by position,
the idx field of the source) and the two intrusive doubly-linked lists,
modelled as index lists whose heads are the list head pointers. -/
structure Bcache where
  bufs : List Buf
  unused : List Nat
  used : List Nat
deriving DecidableEq, Repr

/-- Bcache::init from fs.rs: all thirty buffers zeroed and chained on the
unused list in arena order. -/
def bcache_init : Bcache :=
  { bufs := List.replicate N_BUF ⟨0, 0, 0, 0⟩,
    unused := List.range N_BUF,
    used := [] }

/-- Read the arena slot at index i. -/
def getBuf (c : Bcache) (i : Nat) : Buf := c.bufs.getD i ⟨0, 0, 0, 0⟩

/-- Overwrite the arena slot at index i. -/
def setBuf (c : Bcache) (i : Nat) (b : Buf) : Bcache :=
  { c with bufs := c.bufs.set i b }

/-- Bcache::search_cached: walk the used list looking for the identity. -/
def search_cached (c : Bcache) (dev block_no : Nat) : Option Nat :=
  c.used.find? (fun i => (getBuf c i).dev == dev && (getBuf c i).block_no == block_no)

/-- Bcache::get from fs.rs: on hit increment the reference count; on miss
pop the head of the unused list (whatever its flags say), push it on the
used list, rebind its identity, reset ref_cnt and flags to zero, and
return it with one reference; none models the no-buffers panic. -/
def bcache_get (c : Bcache) (dev block_no : Nat) : Option (Nat × Bcache) :=
  match search_cached c dev block_no with
  | some i =>
    some (i, setBuf c i { getBuf c i with ref_cnt := (getBuf c i).ref_cnt + 1 })
  | none =>
    match c.unused with
    | [] => none
    | i :: rest =>
      let c1 : Bcache := { c with unused := rest, used := i :: c.used }
      let c2 := setBuf c1 i { getBuf c1 i with dev := dev, block_no := block_no,
                                               ref_cnt := 0, flags := 0 }
      some (i, setBuf c2 i { getBuf c2 i with ref_cnt := 1 })

/-- Bcache::release from fs.rs: unlink the node from the used list and
push it at the head of the unused list; the source asserts ref_cnt is
zero but inspects no flag. -/
def bcache_release (c : Bcache) (i : Nat) : Bcache :=
  { c with used := c.used.erase i, unused := i :: c.unused }

/-- Buf::drop_ref from fs.rs: decrement the reference count and, when it
reaches zero, release the buffer to the unused list unconditionally. -/
def drop_ref (c : Bcache) (i : Nat) : Bcache :=
  let b := getBuf c i
  let c1 := setBuf c i { b with ref_cnt := b.ref_cnt - 1 }
  if (getBuf c1 i).ref_cnt = 0 then bcache_release c1 i else c1

/-- Buf::set_flags from fs.rs: store the flag byte. -/
def buf_set_flags (c : Bcache) (i : Nat) (f : Nat) : Bcache :=
  setBuf c i { getBuf c i with flags := f }

/-- The scenario refuting the eviction invariant: get buffer (0,1), mark
it dirty through Buf::set_flags as a writer would, then drop the last
reference. -/
def bcache_scenario : Option Bcache :=
  match bcache_get bcache_init 0 1 with
  | none => none
  | some (i, c) => some (drop_ref (buf_set_flags c i B_DIRTY) i)

/-- The follow-up: after the dirty buffer reached the unused list, get a
different block, which rebinds the same arena slot. -/
def bcache_scenario2 : Option Bcache :=
  match bcache_scenario with
  | none => none
  | some c =>
    match bcache_get c 0 2 with
    | none => none
    | some (_, c2) => some c2

/-- C4: dropping the last reference to the dirty buffer (0,1) moves it to
the head of the unused list even though its DIRTY flag is still set, and
the next Bcache::get for block (0,2) rebinds that same dirty buffer to
the new identity with its flags cleared: the transition to the unused
list does not require the DIRTY flag to be clear. -/
theorem dirty_buffer_enters_unused_list :
    (bcache_scenario.map (fun c => c.unused.head?)) = some (some 0) ∧
    (bcache_scenario.map (fun c => (getBuf c 0).dirty)) = some true ∧
    (bcache_scenario.map (fun c => (getBuf c 0).ref_cnt)) = some 0 ∧
    (bcache_scenario.map (fun c => Buf.unused (getBuf c 0))) = some false ∧
    (bcache_scenario2.map (fun c => ((getBuf c 0).block_no, (getBuf c 0).flags))) =
      some (2, 0) := by
  refine ⟨by decide, by decide, by decide, by decide, by decide⟩

/-! ## memory.rs pg_dir and vm.rs: paging structures -/

/-- Page size in bytes (memory.rs PAGE_SIZE). -/
def PAGE_SIZE : Nat := 4096

/- Flag bits of page-directory and page-table entries (memory.rs
pg_dir::ent_flag). -/
namespace ent_flag

def PAGE_SIZE_4MIB : Nat := 0b000010000000

def CACHE_DISABLE : Nat := 0b000000010000

def WRITE_THROUGH : Nat := 0b000000001000

def USER : Nat := 0b000000000100

def WRITABLE : Nat := 0b000000000010

def PRESENT : Nat := 0b000000000001

end ent_flag

/-- Flag mask of a page-directory entry (memory.rs DIR_ENT_FLAG_MASK). -/
def DIR_ENT_FLAG_MASK : Nat := 0b111110111111

/-- Flag mask of a page-table entry (memory.rs TAB_ENT_FLAG_MASK). -/
def TAB_ENT_FLAG_MASK : Nat := 0b111101111111

/-- Page-directory index of a virtual address (memory.rs pdx). -/
def pdx (va : Nat) : Nat := (va >>> 22) &&& 0x3FF

/-- Page-table index of a virtual address (memory.rs ptx). -/
def ptx (va : Nat) : Nat := (va >>> 12) &&& 0x3FF

/-- PageDirEntry::new_table: pack a page-table address with masked flags. -/
def pde_new_table (page_table_addr flags : Nat) : Nat :=
  page_table_addr ||| (flags &&& DIR_ENT_FLAG_MASK)

/-- PageDirEntry::addr: the entry with its flag mask bits cleared (the
complement is taken in 32 bits). -/
def pde_addr (pde : Nat) : Nat := pde &&& (0xFFFFFFFF ^^^ DIR_ENT_FLAG_MASK)

/-- PageDirEntry::flags_check: all bits of mask are set in the flag field. -/
def pde_flags_check (pde mask : Nat) : Bool :=
  pde &&& DIR_ENT_FLAG_MASK &&& mask == mask

/-- PageTableEntry::new: pack a page address with masked flags. -/
def pte_new (page_addr flags : Nat) : Nat :=
  page_addr ||| (flags &&& TAB_ENT_FLAG_MASK)

/-- PageTableEntry::addr. -/
def pte_addr (pte : Nat) : Nat := pte &&& (0xFFFFFFFF ^^^ TAB_ENT_FLAG_MASK)

/-- PageTableEntry::flags: the flag field of the entry. -/
def pte_flags (pte : Nat) : Nat := pte &&& TAB_ENT_FLAG_MASK

/-- PageTableEntry::flags_check. -/
def pte_flags_check (pte mask : Nat) : Bool :=
  pte &&& TAB_ENT_FLAG_MASK &&& mask == mask

/-- Addr::round_down at PAGE_SIZE: clear the low twelve bits (the source
computes raw with the 32-bit complement of align minus one). -/
def round_down_page (x : Nat) : Nat := x &&& (0xFFFFFFFF ^^^ (PAGE_SIZE - 1))

/-! ### Arithmetic bridge for the bit masks -/

theorem and_mod_4096 (x : Nat) : x &&& 0xFFF = x % 4096 := by
  rw [show (0xFFF : Nat) = 2 ^ 12 - 1 from by norm_num,
      Nat.and_pow_two_sub_one_eq_mod]

theorem and_all32 (x : Nat) (h : x < 2 ^ 32) : x &&& 0xFFFFFFFF = x := by
  rw [show (0xFFFFFFFF : Nat) = 2 ^ 32 - 1 from by norm_num]
  exact Nat.and_pow_two_sub_one_of_lt_two_pow h

theorem aligned_and_small (x m : Nat) (hx : x % 4096 = 0) (hm : m < 4096) :
    x &&& m = 0 := by
  have h1 : x &&& 0xFFF = 0 := by rw [and_mod_4096]; exact hx
  have h2 : (0xFFF : Nat) &&& m = m := by
    rw [Nat.and_comm, and_mod_4096]; exact Nat.mod_eq_of_lt hm
  calc x &&& m = x &&& (0xFFF &&& m) := by rw [h2]
    _ = x &&& 0xFFF &&& m := (Nat.and_assoc x 0xFFF m).symm
    _ = 0 &&& m := by rw [h1]
    _ = 0 := Nat.zero_and m

theorem aligned_and_high (x : Nat) (hx : x % 4096 = 0) (h32 : x < 2 ^ 32) :
    x &&& 0xFFFFF000 = x := by
  have h0 : x &&& 0xFFF = 0 := by rw [and_mod_4096]; exact hx
  calc x &&& 0xFFFFF000 = (x &&& 0xFFFFF000) ||| 0 := (Nat.or_zero _).symm
    _ = (x &&& 0xFFFFF000) ||| (x &&& 0xFFF) := by rw [h0]
    _ = x &&& (0xFFFFF000 ||| 0xFFF) := (Nat.and_or_distrib_left x 0xFFFFF000 0xFFF).symm
    _ = x &&& 0xFFFFFFFF := by rw [show (0xFFFFF000 : Nat) ||| 0xFFF = 0xFFFFFFFF from by decide]
    _ = x := and_all32 x h32

theorem aligned_and_c40 (x : Nat) (hx : x % 4096 = 0) (h32 : x < 2 ^ 32) :
    x &&& 0xFFFFF040 = x := by
  rw [show (0xFFFFF040 : Nat) = 0xFFFFF000 ||| 0x40 from by decide,
      Nat.and_or_distrib_left, aligned_and_high x hx h32,
      aligned_and_small x 0x40 hx (by norm_num), Nat.or_zero]

theorem aligned_and_c80 (x : Nat) (hx : x % 4096 = 0) (h32 : x < 2 ^ 32) :
    x &&& 0xFFFFF080 = x := by
  rw [show (0xFFFFF080 : Nat) = 0xFFFFF000 ||| 0x80 from by decide,
      Nat.and_or_distrib_left, aligned_and_high x hx h32,
      aligned_and_small x 0x80 hx (by norm_num), Nat.or_zero]

theorem low_and_c80 (f : Nat) (hf : f &&& 0xF7F = f) : f &&& 0xFFFFF080 = 0 := by
  calc f &&& 0xFFFFF080 = (f &&& 0xF7F) &&& 0xFFFFF080 := by rw [hf]
    _ = f &&& (0xF7F &&& 0xFFFFF080) := Nat.and_assoc f 0xF7F 0xFFFFF080
    _ = f &&& 0 := by rw [show (0xF7F : Nat) &&& 0xFFFFF080 = 0 from by decide]
    _ = 0 := Nat.and_zero f

theorem low_and_c40 (f : Nat) (hf : f &&& 0xFBF = f) : f &&& 0xFFFFF040 = 0 := by
  calc f &&& 0xFFFFF040 = (f &&& 0xFBF) &&& 0xFFFFF040 := by rw [hf]
    _ = f &&& (0xFBF &&& 0xFFFFF040) := Nat.and_assoc f 0xFBF 0xFFFFF040
    _ = f &&& 0 := by rw [show (0xFBF : Nat) &&& 0xFFFFF040 = 0 from by decide]
    _ = 0 := Nat.and_zero f

theorem round_down_page_eq (x : Nat) (h32 : x < 2 ^ 32) :
    round_down_page x = 4096 * (x / 4096) := by
  have hmask : round_down_page x = x &&& 0xFFFFF000 := by
    unfold round_down_page PAGE_SIZE
    rw [show (0xFFFFFFFF : Nat) ^^^ (4096 - 1) = 0xFFFFF000 from by decide]
  rw [hmask]
  apply Nat.eq_of_testBit_eq
  intro i
  rw [Nat.testBit_and]
  have hshift : (0xFFFFF000 : Nat) = 0xFFFFF <<< 12 := by decide
  have hmul : 4096 * (x / 4096) = (x / 4096) <<< 12 := by
    rw [Nat.shiftLeft_eq]; ring
  rcases Nat.lt_or_ge i 12 with h | h
  · have hm : Nat.testBit 0xFFFFF000 i = false := by
      rw [hshift, Nat.testBit_shiftLeft]
      simp [show ¬ (12 ≤ i) from by omega]
    have hr : Nat.testBit (4096 * (x / 4096)) i = false := by
      rw [hmul, Nat.testBit_shiftLeft]
      simp [show ¬ (12 ≤ i) from by omega]
    simp [hm, hr]
  · have hm : Nat.testBit 0xFFFFF000 i = decide (i < 32) := by
      rw [hshift, Nat.testBit_shiftLeft,
          show (0xFFFFF : Nat) = 2 ^ 20 - 1 from by decide,
          Nat.testBit_two_pow_sub_one]
      by_cases h4 : i < 32
      · simp [h, show i - 12 < 20 from by omega, h4]
      · simp [h, show ¬ (i - 12 < 20) from by omega, h4]
    have hr : Nat.testBit (4096 * (x / 4096)) i = Nat.testBit x i := by
      rw [hmul, Nat.testBit_shiftLeft, decide_eq_true h, Bool.true_and]
      rw [Nat.testBit_to_div_mod, Nat.testBit_to_div_mod, Nat.div_div_eq_div_mul]
      rw [show 4096 * 2 ^ (i - 12) = 2 ^ i from by
        rw [show (4096 : Nat) = 2 ^ 12 from by norm_num, ← pow_add]
        congr 1
        omega]
    rw [hm, hr]
    by_cases h32i : i < 32
    · simp [h32i]
    · have hxz : Nat.testBit x i = false :=
        Nat.testBit_lt_two_pow
          (lt_of_lt_of_le h32 (Nat.pow_le_pow_right (by norm_num) (by omega)))
      simp [hxz]

/-! ### The model of kernel memory seen by walk_page_dir / map_pages -/

/-- The memory state vm.rs operates on: the page directory (sparse map
from directory index to raw PDE, zero when absent, mirroring the zeroed
directory page), the allocated page tables keyed by their physical
address (each a sparse map from table index to raw PTE, zeroed by the
memset in walk_page_dir), and the free list kalloc pops fresh frames
from. -/
structure VmState where
  pd : List (Nat × Nat)
  tables : List (Nat × List (Nat × Nat))
  free : List Nat
deriving DecidableEq, Repr

/-- Sparse lookup with default 0 (a zero-initialised entry). -/
def lookupD : List (Nat × Nat) → Nat → Nat
  | [], _ => 0
  | (k, v) :: rest, key => if key = k then v else lookupD rest key

/-- Find an allocated page table by its physical address. -/
def findTable : List (Nat × List (Nat × Nat)) → Nat → Option (List (Nat × Nat))
  | [], _ => none
  | (k, t) :: rest, key => if key = k then some t else findTable rest key

/-- walk_page_dir from vm.rs: return the location (page-table physical
address and table index) of the PTE for va. If the PDE is present the
table address is its addr field; otherwise, with alloc, a fresh frame is
popped from the free list, zero-initialised, and installed with
PRESENT, WRITABLE and USER; without alloc, or when kalloc fails, none. -/
def walk_page_dir (s : VmState) (va : Nat) (alloc : Bool) :
    Option (VmState × Nat × Nat) :=
  if pde_flags_check (lookupD s.pd (pdx va)) ent_flag.PRESENT then
    some (s, pde_addr (lookupD s.pd (pdx va)), ptx va)
  else if alloc = false then none
  else
    match s.free with
    | [] => none
    | pa :: rest =>
      some ({ pd := (pdx va,
                     pde_new_table pa
                       (ent_flag.PRESENT ||| ent_flag.WRITABLE ||| ent_flag.USER)) :: s.pd,
              tables := (pa, []) :: s.tables,
              free := rest },
            pa, ptx va)

/-- Read the PTE stored at table t, slot idx (0 when the table or the
slot was never written, matching the zeroing memset). -/
def read_pte (s : VmState) (t idx : Nat) : Nat :=
  match findTable s.tables t with
  | some tbl => lookupD tbl idx
  | none => 0

/-- Store a PTE at table t, slot idx. -/
def write_pte (s : VmState) (t idx v : Nat) : VmState :=
  { s with tables :=
      (t, (idx, v) ::
        (match findTable s.tables t with
         | some tbl => tbl
         | none => [])) :: s.tables }

/-- The loop of map_pages, with its iteration count made explicit: each
round walks to the PTE for a (allocating the table if needed), panics
(none) on an already-present entry, writes the new entry packing pa with
perm ||| PRESENT, and advances a and pa by one page with 32-bit
wraparound. -/
def map_loop : VmState → Nat → Nat → Nat → Nat → Option VmState
  | s, _, _, _, 0 => some s
  | s, a, pa, perm, n + 1 =>
    match walk_page_dir s a true with
    | none => none
    | some (s1, t, idx) =>
      if pte_flags_check (read_pte s1 t idx) ent_flag.PRESENT then none
      else map_loop (write_pte s1 t idx (pte_new pa (perm ||| ent_flag.PRESENT)))
                    ((a + PAGE_SIZE) % 2 ^ 32) ((pa + PAGE_SIZE) % 2 ^ 32) perm n

/-- map_pages from vm.rs: round va down to a page, round va + size - 1
down for the last page (usize arithmetic wraps modulo 2^32), and run the
loop once per covered page; the count is the page distance from first to
last plus one. -/
def map_pages (s : VmState) (va size pa perm : Nat) : Option VmState :=
  map_loop s (round_down_page (va % 2 ^ 32)) pa perm
    (((round_down_page ((va + size + (2 ^ 32 - 1)) % 2 ^ 32) + 2 ^ 32 -
       round_down_page (va % 2 ^ 32)) % 2 ^ 32) / PAGE_SIZE + 1)

/-- Translation of a virtual address through the page directory: the
page-directory walk (without allocation) followed by the page-table
entry lookup, yielding the entry's frame address and flag field when the
entry is present. -/
def translate_va (s : VmState) (va : Nat) : Option (Nat × Nat) :=
  match walk_page_dir s va false with
  | none => none
  | some (_, t, idx) =>
    if pte_flags_check (read_pte s t idx) ent_flag.PRESENT then
      some (pte_addr (read_pte s t idx), pte_flags (read_pte s t idx))
    else none

/-- Well-formedness of the memory state, the facts real kernel memory
provides: a present PDE points at an allocated page table; distinct
present PDEs point at distinct tables; the free list holds page-aligned
32-bit frames not yet used as tables, without duplicates. -/
def VmWF (s : VmState) : Prop :=
  (∀ i, pde_flags_check (lookupD s.pd i) ent_flag.PRESENT = true →
      findTable s.tables (pde_addr (lookupD s.pd i)) ≠ none) ∧
  (∀ i j, i ≠ j → pde_flags_check (lookupD s.pd i) ent_flag.PRESENT = true →
      pde_flags_check (lookupD s.pd j) ent_flag.PRESENT = true →
      pde_addr (lookupD s.pd i) ≠ pde_addr (lookupD s.pd j)) ∧
  (∀ p ∈ s.free, p % 4096 = 0 ∧ p < 2 ^ 32 ∧ findTable s.tables p = none) ∧
  s.free.Nodup

/-! ### Properties of freshly packed entries -/

theorem pde_new7_addr (pa : Nat) (h4 : pa % 4096 = 0) (h32 : pa < 2 ^ 32) :
    pde_addr (pde_new_table pa
      (ent_flag.PRESENT ||| ent_flag.WRITABLE ||| ent_flag.USER)) = pa := by
  unfold pde_addr pde_new_table
  rw [show ((ent_flag.PRESENT ||| ent_flag.WRITABLE ||| ent_flag.USER) &&&
        DIR_ENT_FLAG_MASK : Nat) = 7 from by decide,
      show ((0xFFFFFFFF : Nat) ^^^ DIR_ENT_FLAG_MASK) = 0xFFFFF040 from by decide,
      Nat.and_distrib_right, aligned_and_c40 pa h4 h32,
      show ((7 : Nat) &&& 0xFFFFF040) = 0 from by decide, Nat.or_zero]

theorem pde_new7_present (pa : Nat) (h4 : pa % 4096 = 0) :
    pde_flags_check (pde_new_table pa
      (ent_flag.PRESENT ||| ent_flag.WRITABLE ||| ent_flag.USER))
      ent_flag.PRESENT = true := by
  unfold pde_flags_check pde_new_table
  rw [show ((ent_flag.PRESENT ||| ent_flag.WRITABLE ||| ent_flag.USER) &&&
        DIR_ENT_FLAG_MASK : Nat) = 7 from by decide]
  rw [Nat.and_assoc,
      show ((DIR_ENT_FLAG_MASK : Nat) &&& ent_flag.PRESENT) = 1 from by decide,
      Nat.and_distrib_right, aligned_and_small pa 1 h4 (by norm_num),
      show ((7 : Nat) &&& 1) = 1 from by decide]
  decide

theorem perm_or_present_masked (perm : Nat)
    (hperm : perm &&& TAB_ENT_FLAG_MASK = perm) :
    (perm ||| ent_flag.PRESENT) &&& TAB_ENT_FLAG_MASK =
      perm ||| ent_flag.PRESENT := by
  rw [Nat.and_distrib_right, hperm,
      show ((ent_flag.PRESENT : Nat) &&& TAB_ENT_FLAG_MASK) = ent_flag.PRESENT
        from by decide]

theorem pte_new_addr (pa perm : Nat) (h4 : pa % 4096 = 0) (h32 : pa < 2 ^ 32)
    (hperm : perm &&& TAB_ENT_FLAG_MASK = perm) :
    pte_addr (pte_new pa (perm ||| ent_flag.PRESENT)) = pa := by
  unfold pte_addr pte_new
  rw [perm_or_present_masked perm hperm,
      show ((0xFFFFFFFF : Nat) ^^^ TAB_ENT_FLAG_MASK) = 0xFFFFF080 from by decide,
      Nat.and_distrib_right, aligned_and_c80 pa h4 h32,
      low_and_c80 (perm ||| ent_flag.PRESENT)
        (by rw [show (0xF7F : Nat) = TAB_ENT_FLAG_MASK from by decide]
            exact perm_or_present_masked perm hperm),
      Nat.or_zero]

theorem pte_new_flags (pa perm : Nat) (h4 : pa % 4096 = 0)
    (hperm : perm &&& TAB_ENT_FLAG_MASK = perm) :
    pte_flags (pte_new pa (perm ||| ent_flag.PRESENT)) =
      perm ||| ent_flag.PRESENT := by
  unfold pte_flags pte_new
  rw [perm_or_present_masked perm hperm, Nat.and_distrib_right,
      aligned_and_small pa TAB_ENT_FLAG_MASK h4 (by decide),
      perm_or_present_masked perm hperm, Nat.zero_or]

theorem pte_new_present (pa perm : Nat) (h4 : pa % 4096 = 0)
    (hperm : perm &&& TAB_ENT_FLAG_MASK = perm) :
    pte_flags_check (pte_new pa (perm ||| ent_flag.PRESENT))
      ent_flag.PRESENT = true := by
  have hflags := pte_new_flags pa perm h4 hperm
  unfold pte_flags at hflags
  unfold pte_flags_check
  rw [hflags]
  have h1 : (perm ||| ent_flag.PRESENT) &&& ent_flag.PRESENT = 1 := by
    unfold ent_flag.PRESENT
    rw [Nat.and_distrib_right,
        show (perm &&& 1) = perm % 2 from by
          rw [show (1 : Nat) = 2 ^ 1 - 1 from by norm_num,
              Nat.and_pow_two_sub_one_eq_mod],
        show ((1 : Nat) &&& 1) = 1 from by decide]
    rcases Nat.mod_two_eq_zero_or_one perm with h | h <;> rw [h] <;> decide
  rw [h1]
  decide

/-! ### Lookup facts -/

theorem lookupD_cons_self (k v key : Nat) (l : List (Nat × Nat)) (h : key = k) :
    lookupD ((k, v) :: l) key = v := by
  simp [lookupD, h]

theorem lookupD_cons_ne (k v key : Nat) (l : List (Nat × Nat)) (h : key ≠ k) :
    lookupD ((k, v) :: l) key = lookupD l key := by
  simp [lookupD, h]

theorem findTable_cons_self (k key : Nat) (t : List (Nat × Nat))
    (l : List (Nat × List (Nat × Nat))) (h : key = k) :
    findTable ((k, t) :: l) key = some t := by
  simp [findTable, h]

theorem findTable_cons_ne (k key : Nat) (t : List (Nat × Nat))
    (l : List (Nat × List (Nat × Nat))) (h : key ≠ k) :
    findTable ((k, t) :: l) key = findTable l key := by
  simp [findTable, h]

/-- Unfolded form of translation: the PDE for the address must be
present, then the PTE at the addressed table must be present. -/
theorem translate_va_eq (s : VmState) (x : Nat) :
    translate_va s x =
      if pde_flags_check (lookupD s.pd (pdx x)) ent_flag.PRESENT then
        (if pte_flags_check (read_pte s (pde_addr (lookupD s.pd (pdx x))) (ptx x))
             ent_flag.PRESENT then
           some (pte_addr (read_pte s (pde_addr (lookupD s.pd (pdx x))) (ptx x)),
                 pte_flags (read_pte s (pde_addr (lookupD s.pd (pdx x))) (ptx x)))
         else none)
      else none := by
  unfold translate_va walk_page_dir
  by_cases h : pde_flags_check (lookupD s.pd (pdx x)) ent_flag.PRESENT = true
  · simp [h]
  · simp [h]

/-- Soundness of walk_page_dir with allocation: it preserves
well-formedness and every existing translation, and the returned slot is
the PTE slot of va behind a present PDE. -/
theorem walk_alloc_sound (s : VmState) (va : Nat) (s1 : VmState) (t idx : Nat)
    (hwf : VmWF s) (h : walk_page_dir s va true = some (s1, t, idx)) :
    VmWF s1 ∧ idx = ptx va ∧
    pde_flags_check (lookupD s1.pd (pdx va)) ent_flag.PRESENT = true ∧
    t = pde_addr (lookupD s1.pd (pdx va)) ∧
    (∀ x r, translate_va s x = some r → translate_va s1 x = some r) := by
  obtain ⟨hW1, hW2, hW3, hW4⟩ := hwf
  unfold walk_page_dir at h
  by_cases hp : pde_flags_check (lookupD s.pd (pdx va)) ent_flag.PRESENT = true
  · rw [if_pos hp] at h
    simp only [Option.some.injEq, Prod.mk.injEq] at h
    obtain ⟨hs, ht, hidx⟩ := h
    subst hs
    subst ht
    subst hidx
    exact ⟨⟨hW1, hW2, hW3, hW4⟩, rfl, hp, rfl, fun x r hx => hx⟩
  · rw [if_neg hp] at h
    simp only [Bool.true_eq_false, if_false] at h
    cases hf : s.free with
    | nil => rw [hf] at h; exact absurd h (by simp)
    | cons pa0 rest =>
      rw [hf] at h
      simp only [Option.some.injEq, Prod.mk.injEq] at h
      obtain ⟨hs, ht, hidx⟩ := h
      subst ht
      subst hidx
      obtain ⟨hpa4, hpa32, hpanone⟩ :=
        hW3 pa0 (by rw [hf]; exact List.mem_cons_self pa0 rest)
      have hnodup : pa0 ∉ rest := by
        have := hW4
        rw [hf] at this
        exact (List.nodup_cons.mp this).1
      have hpdnew : lookupD s1.pd (pdx va) =
          pde_new_table pa0 (ent_flag.PRESENT ||| ent_flag.WRITABLE ||| ent_flag.USER) := by
        rw [← hs]
        exact lookupD_cons_self _ _ _ _ rfl
      have hpres1 : pde_flags_check (lookupD s1.pd (pdx va)) ent_flag.PRESENT = true := by
        rw [hpdnew]
        exact pde_new7_present pa0 hpa4
      have haddr1 : pde_addr (lookupD s1.pd (pdx va)) = pa0 := by
        rw [hpdnew]
        exact pde_new7_addr pa0 hpa4 hpa32
      have hpdother : ∀ i, i ≠ pdx va → lookupD s1.pd i = lookupD s.pd i := by
        intro i hi
        rw [← hs]
        exact lookupD_cons_ne _ _ _ _ hi
      have htblnew : findTable s1.tables pa0 = some [] := by
        rw [← hs]
        exact findTable_cons_self _ _ _ _ rfl
      have htblother : ∀ p, p ≠ pa0 → findTable s1.tables p = findTable s.tables p := by
        intro p hpne
        rw [← hs]
        exact findTable_cons_ne _ _ _ _ hpne
      have hfree1 : s1.free = rest := by rw [← hs]
      refine ⟨⟨?_, ?_, ?_, ?_⟩, rfl, hpres1, haddr1.symm, ?_⟩
      · -- W1 for s1
        intro i hi
        by_cases hii : i = pdx va
        · subst hii
          rw [haddr1, htblnew]
          simp
        · rw [hpdother i hii] at hi ⊢
          have h1 := hW1 i hi
          have hne : pde_addr (lookupD s.pd i) ≠ pa0 := by
            intro e
            rw [e, hpanone] at h1
            exact h1 rfl
          rw [htblother _ hne]
          exact hW1 i hi
      · -- W2 for s1
        intro i j hij hi hj
        by_cases hii : i = pdx va
        · subst hii
          have hjj : j ≠ pdx va := fun e => hij e.symm
          rw [hpdother j hjj] at hj ⊢
          rw [haddr1]
          have h1 := hW1 j hj
          intro e
          rw [← e, hpanone] at h1
          exact h1 rfl
        · by_cases hjj : j = pdx va
          · subst hjj
            rw [hpdother i hii] at hi ⊢
            rw [haddr1]
            have h1 := hW1 i hi
            intro e
            rw [e, hpanone] at h1
            exact h1 rfl
          · rw [hpdother i hii] at hi ⊢
            rw [hpdother j hjj] at hj ⊢
            exact hW2 i j hij hi hj
      · -- W3 for s1
        intro p hp'
        rw [hfree1] at hp'
        obtain ⟨hp4, hp32, hpnone⟩ := hW3 p (by rw [hf]; exact List.mem_cons_of_mem _ hp')
        have hpne : p ≠ pa0 := fun e => hnodup (e ▸ hp')
        rw [htblother p hpne]
        exact ⟨hp4, hp32, hpnone⟩
      · -- W4 for s1
        rw [hfree1]
        have := hW4
        rw [hf] at this
        exact (List.nodup_cons.mp this).2
      · -- translation preservation
        intro x r hx
        rw [translate_va_eq] at hx ⊢
        by_cases hpx : pdx x = pdx va
        · rw [hpx] at hx
          rw [if_neg (by simp [hp])] at hx
          exact absurd hx (by simp)
        · rw [hpdother _ hpx]
          by_cases hpresx : pde_flags_check (lookupD s.pd (pdx x)) ent_flag.PRESENT = true
          · rw [if_pos hpresx] at hx ⊢
            have h1 := hW1 (pdx x) hpresx
            have hne : pde_addr (lookupD s.pd (pdx x)) ≠ pa0 := by
              intro e
              rw [e, hpanone] at h1
              exact h1 rfl
            have hread : read_pte s1 (pde_addr (lookupD s.pd (pdx x))) (ptx x) =
                read_pte s (pde_addr (lookupD s.pd (pdx x))) (ptx x) := by
              unfold read_pte
              rw [htblother _ hne]
            rw [hread]
            exact hx
          · rw [if_neg hpresx] at hx
            exact absurd hx (by simp)

/-- Soundness of writing a fresh PTE into the slot walk_page_dir
returned: well-formedness and existing translations are preserved, and
the written address now translates to the new entry. -/
theorem write_pte_sound (s1 : VmState) (va t v : Nat)
    (hwf1 : VmWF s1)
    (hpres : pde_flags_check (lookupD s1.pd (pdx va)) ent_flag.PRESENT = true)
    (ht : t = pde_addr (lookupD s1.pd (pdx va)))
    (hnp : ¬ pte_flags_check (read_pte s1 t (ptx va)) ent_flag.PRESENT = true)
    (hvp : pte_flags_check v ent_flag.PRESENT = true) :
    VmWF (write_pte s1 t (ptx va) v) ∧
    (∀ x r, translate_va s1 x = some r →
        translate_va (write_pte s1 t (ptx va) v) x = some r) ∧
    translate_va (write_pte s1 t (ptx va) v) va = some (pte_addr v, pte_flags v) := by
  obtain ⟨hW1, hW2, hW3, hW4⟩ := hwf1
  have htsome : findTable s1.tables t ≠ none := by
    rw [ht]
    exact hW1 (pdx va) hpres
  obtain ⟨tbl, htbl⟩ : ∃ tbl, findTable s1.tables t = some tbl := by
    cases he : findTable s1.tables t with
    | none => exact absurd he htsome
    | some tbl => exact ⟨tbl, rfl⟩
  have hs2tables : (write_pte s1 t (ptx va) v).tables =
      (t, (ptx va, v) :: tbl) :: s1.tables := by
    unfold write_pte
    rw [htbl]
  have hs2pd : (write_pte s1 t (ptx va) v).pd = s1.pd := rfl
  have hfind2 : ∀ p, p ≠ t →
      findTable (write_pte s1 t (ptx va) v).tables p = findTable s1.tables p := by
    intro p hp
    rw [hs2tables]
    exact findTable_cons_ne _ _ _ _ hp
  have hfind2t : findTable (write_pte s1 t (ptx va) v).tables t =
      some ((ptx va, v) :: tbl) := by
    rw [hs2tables]
    exact findTable_cons_self _ _ _ _ rfl
  have hread2 : ∀ idx, idx ≠ ptx va →
      read_pte (write_pte s1 t (ptx va) v) t idx = read_pte s1 t idx := by
    intro idx hidx
    unfold read_pte
    rw [hfind2t, htbl]
    exact lookupD_cons_ne _ _ _ _ hidx
  have hread2t : read_pte (write_pte s1 t (ptx va) v) t (ptx va) = v := by
    unfold read_pte
    rw [hfind2t]
    exact lookupD_cons_self _ _ _ _ rfl
  have hreadother : ∀ p idx, p ≠ t →
      read_pte (write_pte s1 t (ptx va) v) p idx = read_pte s1 p idx := by
    intro p idx hp
    unfold read_pte
    rw [hfind2 p hp]
  refine ⟨⟨?_, ?_, ?_, ?_⟩, ?_, ?_⟩
  · -- W1
    intro i hi
    rw [hs2pd] at hi ⊢
    by_cases he : pde_addr (lookupD s1.pd i) = t
    · rw [he, hfind2t]
      simp
    · rw [hfind2 _ he]
      exact hW1 i hi
  · -- W2
    intro i j hij hi hj
    rw [hs2pd] at hi hj ⊢
    exact hW2 i j hij hi hj
  · -- W3
    intro p hp
    have hp' : p ∈ s1.free := hp
    obtain ⟨h4, h32, hnone⟩ := hW3 p hp'
    have hpne : p ≠ t := by
      intro e
      rw [← e, hnone] at htsome
      exact htsome rfl
    rw [hfind2 p hpne]
    exact ⟨h4, h32, hnone⟩
  · -- W4
    exact hW4
  · -- preservation
    intro x r hx
    rw [translate_va_eq] at hx ⊢
    rw [hs2pd]
    by_cases hpresx : pde_flags_check (lookupD s1.pd (pdx x)) ent_flag.PRESENT = true
    · rw [if_pos hpresx] at hx ⊢
      by_cases htx : pde_addr (lookupD s1.pd (pdx x)) = t
      · have hpdxeq : pdx x = pdx va := by
          by_contra hne
          exact hW2 (pdx x) (pdx va) hne hpresx hpres (by rw [htx, ht])
        by_cases hix : ptx x = ptx va
        · rw [htx, hix] at hx
          rw [if_neg hnp] at hx
          exact absurd hx (by simp)
        · rw [htx] at hx ⊢
          rw [hread2 _ hix]
          exact hx
      · rw [hreadother _ _ htx]
        exact hx
    · rw [if_neg hpresx] at hx
      exact absurd hx (by simp)
  · -- the new translation
    rw [translate_va_eq, hs2pd, if_pos hpres, ← ht, hread2t, if_pos hvp]

/-- Soundness of the map_pages loop: after n successful rounds starting
at page-aligned a and pa with the whole range below 4 GiB, the final
state is well-formed, every prior translation survives, and each covered
page translates to its frame with flag field perm ||| PRESENT. -/
theorem map_loop_sound (perm : Nat) (hperm : perm &&& TAB_ENT_FLAG_MASK = perm) :
    ∀ (n : Nat) (s s' : VmState) (a pa : Nat),
      VmWF s → a % 4096 = 0 → a + 4096 * n ≤ 2 ^ 32 →
      pa % 4096 = 0 → pa + 4096 * n ≤ 2 ^ 32 →
      map_loop s a pa perm n = some s' →
      VmWF s' ∧
      (∀ x r, translate_va s x = some r → translate_va s' x = some r) ∧
      (∀ j, j < n → translate_va s' (a + 4096 * j) =
          some (pa + 4096 * j, perm ||| ent_flag.PRESENT)) := by
  intro n
  induction n with
  | zero =>
    intro s s' a pa hwf _ _ _ _ hmap
    simp only [map_loop, Option.some.injEq] at hmap
    subst hmap
    exact ⟨hwf, fun x r hx => hx, fun j hj => absurd hj (by omega)⟩
  | succ m ih =>
    intro s s' a pa hwf ha4 habound hpa4 hpabound hmap
    have h232 : (2 : Nat) ^ 32 = 4294967296 := by norm_num
    rw [h232] at habound hpabound
    have ha32 : a < 2 ^ 32 := by rw [h232]; omega
    have hpa32 : pa < 2 ^ 32 := by rw [h232]; omega
    rw [map_loop] at hmap
    cases hw : walk_page_dir s a true with
    | none => rw [hw] at hmap; exact absurd hmap (by simp)
    | some res =>
      obtain ⟨s1, t, idx⟩ := res
      rw [hw] at hmap
      dsimp only at hmap
      by_cases hpte : pte_flags_check (read_pte s1 t idx) ent_flag.PRESENT = true
      · rw [if_pos hpte] at hmap
        exact absurd hmap (by simp)
      · rw [if_neg hpte] at hmap
        obtain ⟨hwf1, hidx, hpres1, ht1, hpres01⟩ := walk_alloc_sound s a s1 t idx hwf hw
        subst hidx
        obtain ⟨hwf2, hpres12, hnew⟩ :=
          write_pte_sound s1 a t (pte_new pa (perm ||| ent_flag.PRESENT))
            hwf1 hpres1 ht1 hpte (pte_new_present pa perm hpa4 hperm)
        rw [pte_new_addr pa perm hpa4 hpa32 hperm,
            pte_new_flags pa perm hpa4 hperm] at hnew
        cases m with
        | zero =>
          simp only [map_loop, Option.some.injEq] at hmap
          subst hmap
          refine ⟨hwf2, fun x r hx => hpres12 x r (hpres01 x r hx), ?_⟩
          intro j hj
          have hj0 : j = 0 := by omega
          subst hj0
          simpa using hnew
        | succ m' =>
          have hstep : (a + PAGE_SIZE) % 2 ^ 32 = a + 4096 := by
            unfold PAGE_SIZE
            rw [h232]
            omega
          have hstepp : (pa + PAGE_SIZE) % 2 ^ 32 = pa + 4096 := by
            unfold PAGE_SIZE
            rw [h232]
            omega
          rw [hstep, hstepp] at hmap
          obtain ⟨hwf', hpres2', hmaps⟩ :=
            ih (write_pte s1 t (ptx a) (pte_new pa (perm ||| ent_flag.PRESENT))) s'
              (a + 4096) (pa + 4096) hwf2 (by omega)
              (by rw [h232]; omega) (by omega) (by rw [h232]; omega) hmap
          refine ⟨hwf', fun x r hx => hpres2' x r (hpres12 x r (hpres01 x r hx)), ?_⟩
          intro j hj
          cases j with
          | zero =>
            simpa using hpres2' _ _ hnew
          | succ j' =>
            have := hmaps j' (by omega)
            have harr : a + 4096 + 4096 * j' = a + 4096 * (j' + 1) := by ring
            have harrp : pa + 4096 + 4096 * j' = pa + 4096 * (j' + 1) := by ring
            rw [harr, harrp] at this
            exact this

/-- C3: if map_pages succeeds on a page-aligned region (va, size and pa
multiples of PAGE_SIZE, the region below 4 GiB, perm a PTE flag value),
then for every page-aligned offset k below size, translating va + k
through the resulting page directory (directory walk followed by
page-table-entry lookup) yields the frame address pa + k with the flag
field exactly perm ||| PRESENT. -/
theorem map_pages_translate (s s' : VmState) (va size pa perm k : Nat)
    (hwf : VmWF s)
    (hva4 : va % PAGE_SIZE = 0) (hsize4 : size % PAGE_SIZE = 0)
    (hva32 : va + size ≤ 2 ^ 32)
    (hpa4 : pa % PAGE_SIZE = 0) (hpa32 : pa + size ≤ 2 ^ 32)
    (hperm : perm &&& TAB_ENT_FLAG_MASK = perm)
    (hk4 : k % PAGE_SIZE = 0) (hk : k < size)
    (hmap : map_pages s va size pa perm = some s') :
    translate_va s' (va + k) = some (pa + k, perm ||| ent_flag.PRESENT) := by
  have h232 : (2 : Nat) ^ 32 = 4294967296 := by norm_num
  have hva4' : va % 4096 = 0 := hva4
  have hsize4' : size % 4096 = 0 := hsize4
  have hpa4' : pa % 4096 = 0 := hpa4
  have hk4' : k % 4096 = 0 := hk4
  rw [h232] at hva32 hpa32
  have hsz : 4096 ≤ size := by omega
  have hva32' : va < 2 ^ 32 := by rw [h232]; omega
  unfold map_pages at hmap
  rw [show va % 2 ^ 32 = va from by rw [h232]; omega] at hmap
  rw [round_down_page_eq va hva32'] at hmap
  rw [show 4096 * (va / 4096) = va from by omega] at hmap
  rw [show (va + size + (2 ^ 32 - 1)) % 2 ^ 32 = va + size - 1 from by
        rw [h232]; omega] at hmap
  rw [round_down_page_eq _ (show va + size - 1 < 2 ^ 32 from by rw [h232]; omega)] at hmap
  rw [show 4096 * ((va + size - 1) / 4096) = va + size - 4096 from by omega] at hmap
  rw [show (va + size - 4096 + 2 ^ 32 - va) % 2 ^ 32 / PAGE_SIZE + 1 = size / 4096 from by
        unfold PAGE_SIZE; rw [h232]; omega] at hmap
  obtain ⟨_, _, hj⟩ :=
    map_loop_sound perm hperm (size / 4096) s s' va pa hwf hva4'
      (by rw [h232]; omega) hpa4' (by rw [h232]; omega) hmap
  have hthis := hj (k / 4096) (by omega)
  rw [show 4096 * (k / 4096) = k from by omega] at hthis
  exact hthis

/-- The one-page witness configuration: an empty page directory, no
tables, and one free frame at physical 0x5000 from which walk_page_dir
allocates the page table. -/
def map_pages_example_pre : VmState := ⟨[], [], [0x5000]⟩

/-- The state map_pages produces for mapping virtual 0x400000 to
physical 0x3000, writable: the PDE at index 1 holds 0x5007, and the new
table holds PTE 0x3003 at slot 0. -/
def map_pages_example_post : VmState :=
  ⟨[(1, 0x5007)], [(0x5000, [(0, 0x3003)]), (0x5000, [])], []⟩

/-- Witness for C3 at a concrete one-page mapping. -/
theorem map_pages_translate_witness :
    map_pages map_pages_example_pre 0x400000 4096 0x3000 2 =
      some map_pages_example_post ∧
    translate_va map_pages_example_post (0x400000 + 0) =
      some (0x3000 + 0, 2 ||| ent_flag.PRESENT) := by
  refine ⟨by decide, ?_⟩
  refine map_pages_translate map_pages_example_pre map_pages_example_post
    0x400000 4096 0x3000 2 0 ⟨?_, ?_, ?_, ?_⟩
    (by decide) (by decide) (by decide) (by decide) (by decide) (by decide)
    (by decide) (by decide) (by decide)
  · intro i h
    have h0 : lookupD map_pages_example_pre.pd i = 0 := rfl
    rw [h0] at h
    exact absurd h (by decide)
  · intro i j hij hi hj
    have h0 : lookupD map_pages_example_pre.pd i = 0 := rfl
    rw [h0] at hi
    exact absurd hi (by decide)
  · intro p hp
    rw [show map_pages_example_pre.free = [0x5000] from rfl, List.mem_singleton] at hp
    subst hp
    exact ⟨by decide, by decide, rfl⟩
  · exact List.nodup_singleton 0x5000
